import Mathlib

/-!
Verification of the mode-dispatch scheduler of `wpilib/iterativerobot.py`
(`IterativeRobot`), a shallow embedding of `startCompetition`, its per-mode
initialization flags, the `nextPeriodReady` tick predicate, and the default
init/periodic handlers.

The embedding:
* `RobotState` holds the four initialization flags set up by
  `IterativeRobot.__init__`.
* One iteration of the `while True` loop of `startCompetition` becomes
  `loopIter`; its externally observable calls are recorded as `Event`s.
  The external inputs of an iteration (the driver-station predicates
  `isDisabled` / `isTest` / `isAutonomous` and the value returned by
  `ds.isNewControlData()`) are a `LoopInput`.
* A fallible variant `stepE` / `runE` models exception propagation: each
  call site that can raise (the mode init callback, the HAL observe call,
  the mode periodic callback) is given a raise/no-raise flag in a
  `FaultSpec`, and a raise aborts the iteration exactly where the Python
  exception would propagate, since `startCompetition` contains no
  try/except.
* The printing behaviour of the default handlers (`disabledInit`,
  `disabledPeriodic`, ...) is modelled by per-handler step functions over
  the `firstRun` attribute latch.
-/

/-- The four operating modes of the robot (`disabled`, `test`, `autonomous`,
`teleop`). In the source they are not reified; they are the four branches of
the `if`/`elif` chain of `startCompetition`. -/
inductive Mode where
  | Disabled
  | Test
  | Autonomous
  | Teleop
deriving DecidableEq, Repr

/-- The mutable state of an `IterativeRobot`: the four per-mode
initialization flags set to `False` by `IterativeRobot.__init__`. Field
order follows the assignment order in `__init__`. -/
structure RobotState where
  disabledInitialized : Bool
  autonomousInitialized : Bool
  teleopInitialized : Bool
  testInitialized : Bool
deriving DecidableEq, Repr

/-- The state produced by `IterativeRobot.__init__`: all four flags `False`. -/
def initState : RobotState :=
  { disabledInitialized := false
    autonomousInitialized := false
    teleopInitialized := false
    testInitialized := false }

/-- The external inputs consumed by one iteration of the `while True` loop:
the three driver-station mode predicates and the value that
`ds.isNewControlData()` returns in this iteration. -/
structure LoopInput where
  isDisabled : Bool
  isTest : Bool
  isAutonomous : Bool
  isNewControlData : Bool
deriving DecidableEq, Repr

/-- `IterativeRobot.nextPeriodReady`: returns `self.ds.isNewControlData()`. -/
def nextPeriodReady (inp : LoopInput) : Bool :=
  inp.isNewControlData

/-- Observable calls made by `startCompetition`, in program order:
the HAL usage report, the `robotInit` call, a mode init callback, the
`nextPeriodReady` query, the per-mode
`HALNetworkCommunicationObserveUserProgram*` telemetry call, a mode periodic
callback and the `ds.waitForData()` call closing an iteration. -/
inductive Event where
  | halReport
  | robotInitCall
  | initCall (m : Mode)
  | nextPeriodReadyCall
  | observe (m : Mode)
  | periodicCall (m : Mode)
  | waitForData
deriving DecidableEq, Repr

/-- The state written by the init block of the branch for mode `m`: the
branch sets its own flag to `True` and resets the three other flags to
`False` (e.g. lines 86-90 for the disabled branch). -/
def activeState : Mode → RobotState
  | Mode.Disabled =>
      { disabledInitialized := true, autonomousInitialized := false
        teleopInitialized := false, testInitialized := false }
  | Mode.Test =>
      { disabledInitialized := false, autonomousInitialized := false
        teleopInitialized := false, testInitialized := true }
  | Mode.Autonomous =>
      { disabledInitialized := false, autonomousInitialized := true
        teleopInitialized := false, testInitialized := false }
  | Mode.Teleop =>
      { disabledInitialized := false, autonomousInitialized := false
        teleopInitialized := true, testInitialized := false }

/-- The initialization flag of mode `m` in state `s`. -/
def flagOf (s : RobotState) : Mode → Bool
  | Mode.Disabled => s.disabledInitialized
  | Mode.Test => s.testInitialized
  | Mode.Autonomous => s.autonomousInitialized
  | Mode.Teleop => s.teleopInitialized

/-- One mode branch of the loop body of `startCompetition`. The four
branches of the source are identical up to the mode name: if the branch's
own flag (`initialized`) is `False`, call the mode's init callback and
rewrite all four flags (`activeState m`); then query `nextPeriodReady`, and
if it is true call the mode's HAL observe function and the mode's periodic
callback; finally call `ds.waitForData()`. -/
def branchIter (m : Mode) (initialized : Bool) (s : RobotState)
    (inp : LoopInput) : RobotState × List Event :=
  let s1 := if initialized then s else activeState m
  let es1 : List Event := if initialized then [] else [Event.initCall m]
  if nextPeriodReady inp then
    (s1, es1 ++ [Event.nextPeriodReadyCall, Event.observe m,
                 Event.periodicCall m, Event.waitForData])
  else
    (s1, es1 ++ [Event.nextPeriodReadyCall, Event.waitForData])

/-- One iteration of the `while True` loop of `startCompetition`: the
`if self.isDisabled(): ... elif self.isTest(): ... elif self.isAutonomous():
... else: ...` chain, dispatching to the branch for the selected mode. -/
def loopIter (s : RobotState) (inp : LoopInput) : RobotState × List Event :=
  if inp.isDisabled then
    branchIter Mode.Disabled s.disabledInitialized s inp
  else if inp.isTest then
    branchIter Mode.Test s.testInitialized s inp
  else if inp.isAutonomous then
    branchIter Mode.Autonomous s.autonomousInitialized s inp
  else
    branchIter Mode.Teleop s.teleopInitialized s inp

/-- The mode whose branch the `if`/`elif` chain selects, as a function of
the three driver-station predicates: `Disabled`, else `Test`, else
`Autonomous`, else the `Teleop` fallback. -/
def currentMode (inp : LoopInput) : Mode :=
  if inp.isDisabled then Mode.Disabled
  else if inp.isTest then Mode.Test
  else if inp.isAutonomous then Mode.Autonomous
  else Mode.Teleop

/-- Run the loop of `startCompetition` over a finite prefix of the input
stream, returning the final state and the concatenated events. -/
def loopRun (s : RobotState) : List LoopInput → RobotState × List Event
  | [] => (s, [])
  | inp :: rest =>
      ((loopRun (loopIter s inp).1 rest).1,
       (loopIter s inp).2 ++ (loopRun (loopIter s inp).1 rest).2)

/-- The events of each loop iteration separately, in order. -/
def iterEvents (s : RobotState) : List LoopInput → List (List Event)
  | [] => []
  | inp :: rest => (loopIter s inp).2 :: iterEvents (loopIter s inp).1 rest

/-- The state at every iteration boundary: the state at construction,
then the state after each iteration. -/
def loopStates (s : RobotState) : List LoopInput → List RobotState
  | [] => [s]
  | inp :: rest => s :: loopStates (loopIter s inp).1 rest

/-- `IterativeRobot.startCompetition` on a finite prefix of the input
stream: the HAL framework usage report, then `robotInit()`, then the loop. -/
def startCompetition (L : List LoopInput) : RobotState × List Event :=
  ((loopRun initState L).1,
   Event.halReport :: Event.robotInitCall :: (loopRun initState L).2)

/-- Number of occurrences of an event in an event list. -/
def countEvent (e : Event) : List Event → Nat
  | [] => 0
  | x :: xs => (if x = e then 1 else 0) + countEvent e xs

/-- A default `LoopInput` used only for total list indexing. -/
def defaultInput : LoopInput :=
  { isDisabled := false, isTest := false, isAutonomous := false
    isNewControlData := false }

/-- The mode selected at iteration `i` of an input list (total indexing). -/
def modeAtD (L : List LoopInput) (i : Nat) : Mode :=
  currentMode (L.getD i defaultInput)

/-- States reachable by the loop: the constructed state or the state left
behind by some branch's init block. -/
def Reachable (s : RobotState) : Prop :=
  s = initState ∨ ∃ m : Mode, s = activeState m

/-- At most one of the four initialization flags is set. -/
def atMostOneInit (s : RobotState) : Prop :=
  s.disabledInitialized.toNat + s.autonomousInitialized.toNat +
      s.teleopInitialized.toNat + s.testInitialized.toNat ≤ 1

/-- Which of the fallible call sites of one loop iteration raise when
invoked: the mode init callback, the per-mode HAL
`HALNetworkCommunicationObserveUserProgram*` telemetry call, and the mode
periodic callback. `startCompetition` has no try/except, so a raise at a
call site propagates out of the loop immediately. -/
structure FaultSpec where
  initFault : Bool
  observeFault : Bool
  periodicFault : Bool
deriving DecidableEq, Repr

/-- Result of running fallible code: normal completion, or an exception
propagating with `s` the flag state at the moment the exception escapes and
`es` the calls made before (and including) the raising one. -/
inductive Outcome where
  | ok (s : RobotState) (es : List Event)
  | fault (s : RobotState) (es : List Event)
deriving DecidableEq, Repr

/-- The tick part of a branch, with fallible observe and periodic calls:
`if self.nextPeriodReady(): hal.HALNetworkCommunicationObserveUserProgram*();
self.<mode>Periodic()`, then `self.ds.waitForData()`. `s1` and `es1` are the
state and events left by the init part of the branch. -/
def branchTickE (m : Mode) (s1 : RobotState) (es1 : List Event)
    (inp : LoopInput) (fs : FaultSpec) : Outcome :=
  if nextPeriodReady inp then
    if fs.observeFault then
      Outcome.fault s1 (es1 ++ [Event.nextPeriodReadyCall, Event.observe m])
    else if fs.periodicFault then
      Outcome.fault s1
        (es1 ++ [Event.nextPeriodReadyCall, Event.observe m,
                 Event.periodicCall m])
    else
      Outcome.ok s1
        (es1 ++ [Event.nextPeriodReadyCall, Event.observe m,
                 Event.periodicCall m, Event.waitForData])
  else
    Outcome.ok s1 (es1 ++ [Event.nextPeriodReadyCall, Event.waitForData])

/-- One mode branch with fallible calls. The init callback is invoked
before the four flag assignments, so a raise inside it leaves the flags
exactly as they were at the start of the iteration. -/
def branchStepE (m : Mode) (init : Bool) (s : RobotState) (inp : LoopInput)
    (fs : FaultSpec) : Outcome :=
  if init then
    branchTickE m s [] inp fs
  else if fs.initFault then
    Outcome.fault s [Event.initCall m]
  else
    branchTickE m (activeState m) [Event.initCall m] inp fs

/-- One iteration of the loop of `startCompetition` with fallible calls:
the same `if`/`elif` chain as `loopIter`. -/
def stepE (s : RobotState) (inp : LoopInput) (fs : FaultSpec) : Outcome :=
  if inp.isDisabled then
    branchStepE Mode.Disabled s.disabledInitialized s inp fs
  else if inp.isTest then
    branchStepE Mode.Test s.testInitialized s inp fs
  else if inp.isAutonomous then
    branchStepE Mode.Autonomous s.autonomousInitialized s inp fs
  else
    branchStepE Mode.Teleop s.teleopInitialized s inp fs

/-- Run the fallible loop: an exception in an iteration aborts the loop at
once, with no further iteration and no further state change. -/
def runE (s : RobotState) : List (LoopInput × FaultSpec) → Outcome
  | [] => Outcome.ok s []
  | (inp, fs) :: rest =>
      match stepE s inp fs with
      | Outcome.fault s1 es => Outcome.fault s1 es
      | Outcome.ok s1 es =>
          match runE s1 rest with
          | Outcome.fault s2 es2 => Outcome.fault s2 (es ++ es2)
          | Outcome.ok s2 es2 => Outcome.ok s2 (es ++ es2)

/-- `startCompetition` with fallible calls: report and `robotInit`, then
the loop; an exception escaping the loop escapes `startCompetition`. -/
def startCompetitionE (L : List (LoopInput × FaultSpec)) : Outcome :=
  match runE initState L with
  | Outcome.ok s es =>
      Outcome.ok s (Event.halReport :: Event.robotInitCall :: es)
  | Outcome.fault s es =>
      Outcome.fault s (Event.halReport :: Event.robotInitCall :: es)

/-- Whether the function object of a default handler carries the `firstRun`
attribute (`hasattr(func, "firstRun")`). The attribute lives on the
function object itself, so it is shared by all invocations of that handler,
over any number of mode entries. -/
structure LatchState where
  hasFirstRunAttr : Bool
deriving DecidableEq, Repr

/-- At program start no function object has a `firstRun` attribute. -/
def freshLatch : LatchState :=
  { hasFirstRunAttr := false }

/-- `IterativeRobot.disabledInit` (default body): prints the
"Overload me!" diagnostic unconditionally on every call; it neither reads
nor writes any latch. The returned `Bool` records whether the diagnostic
was printed by this call. -/
def disabledInitStep (st : LatchState) : LatchState × Bool :=
  (st, true)

/-- `IterativeRobot.autonomousInit` (default body): identical to
`disabledInit` up to the printed name. -/
def autonomousInitStep (st : LatchState) : LatchState × Bool :=
  (st, true)

/-- `IterativeRobot.teleopInit` (default body): identical to
`disabledInit` up to the printed name. -/
def teleopInitStep (st : LatchState) : LatchState × Bool :=
  (st, true)

/-- `IterativeRobot.testInit` (default body): identical to `disabledInit`
up to the printed name. -/
def testInitStep (st : LatchState) : LatchState × Bool :=
  (st, true)

/-- `IterativeRobot.disabledPeriodic` (default body): prints the
"Overload me!" diagnostic only when the function object lacks the
`firstRun` attribute, then sets the attribute; the trailing
`Timer.delay(0.001)` yield has no bearing on the printed output. -/
def disabledPeriodicStep (st : LatchState) : LatchState × Bool :=
  if st.hasFirstRunAttr then (st, false)
  else ({ hasFirstRunAttr := true }, true)

/-- `IterativeRobot.autonomousPeriodic` (default body): identical to
`disabledPeriodic` up to the printed name. -/
def autonomousPeriodicStep (st : LatchState) : LatchState × Bool :=
  if st.hasFirstRunAttr then (st, false)
  else ({ hasFirstRunAttr := true }, true)

/-- `IterativeRobot.teleopPeriodic` (default body): identical to
`disabledPeriodic` up to the printed name. -/
def teleopPeriodicStep (st : LatchState) : LatchState × Bool :=
  if st.hasFirstRunAttr then (st, false)
  else ({ hasFirstRunAttr := true }, true)

/-- `IterativeRobot.testPeriodic` (default body): identical to
`disabledPeriodic` up to the printed name (and with no trailing delay). -/
def testPeriodicStep (st : LatchState) : LatchState × Bool :=
  if st.hasFirstRunAttr then (st, false)
  else ({ hasFirstRunAttr := true }, true)

/-- Invoke one handler `n` times in a row, recording for each invocation
whether it printed its diagnostic. -/
def iterateHandler (f : LatchState → LatchState × Bool) (st : LatchState) :
    Nat → List Bool
  | 0 => []
  | n + 1 => (f st).2 :: iterateHandler f (f st).1 n

@[simp] theorem countEvent_nil (e : Event) : countEvent e [] = 0 := rfl

@[simp] theorem countEvent_cons (e x : Event) (xs : List Event) :
    countEvent e (x :: xs) = (if x = e then 1 else 0) + countEvent e xs := rfl

@[simp] theorem countEvent_append (e : Event) (l1 l2 : List Event) :
    countEvent e (l1 ++ l2) = countEvent e l1 + countEvent e l2 := by
  induction l1 with
  | nil => simp
  | cons x xs ih => simp [ih]; omega

@[simp] theorem flagOf_initState (m : Mode) : flagOf initState m = false := by
  cases m <;> rfl

@[simp] theorem flagOf_activeState (m' m : Mode) :
    flagOf (activeState m') m = decide (m' = m) := by
  cases m' <;> cases m <;> rfl

theorem branchIter_fst (m : Mode) (init : Bool) (s : RobotState)
    (inp : LoopInput) :
    (branchIter m init s inp).1 = if init then s else activeState m := by
  cases hn : nextPeriodReady inp <;> simp [branchIter, hn]

theorem branchIter_snd (m : Mode) (init : Bool) (s : RobotState)
    (inp : LoopInput) :
    (branchIter m init s inp).2 =
      (if init then [] else [Event.initCall m]) ++
        Event.nextPeriodReadyCall ::
          ((if nextPeriodReady inp then
              [Event.observe m, Event.periodicCall m]
            else []) ++ [Event.waitForData]) := by
  cases init <;> cases hn : nextPeriodReady inp <;> simp [branchIter, hn]

/-- The `if`/`elif` chain dispatches to the branch of `currentMode inp`,
testing that branch's own flag. -/
theorem loopIter_eq_branch (s : RobotState) (inp : LoopInput) :
    loopIter s inp =
      branchIter (currentMode inp) (flagOf s (currentMode inp)) s inp := by
  rcases inp with ⟨d, t, a, n⟩
  cases d <;> cases t <;> cases a <;> simp [loopIter, currentMode, flagOf]

/-- After any iteration from a reachable state, the state is exactly the
active state of the selected mode. -/
theorem loopIter_fst (s : RobotState) (inp : LoopInput) (h : Reachable s) :
    (loopIter s inp).1 = activeState (currentMode inp) := by
  rw [loopIter_eq_branch, branchIter_fst]
  rcases h with rfl | ⟨m, rfl⟩
  · simp
  · by_cases hm : m = currentMode inp
    · subst hm; simp
    · simp [hm]

theorem reachable_loopIter (s : RobotState) (inp : LoopInput)
    (h : Reachable s) : Reachable (loopIter s inp).1 := by
  rw [loopIter_fst s inp h]
  exact Or.inr ⟨currentMode inp, rfl⟩

/-- An iteration emits `initCall M` once when the selected mode is `M` and
its flag is down, and never otherwise. -/
theorem countEvent_initCall_loopIter (s : RobotState) (inp : LoopInput)
    (M : Mode) :
    countEvent (Event.initCall M) (loopIter s inp).2 =
      if currentMode inp = M ∧ flagOf s M = false then 1 else 0 := by
  rw [loopIter_eq_branch, branchIter_snd]
  rcases eq_or_ne (currentMode inp) M with hm | hm
  · subst hm
    cases hf : flagOf s (currentMode inp) <;>
      cases hn : nextPeriodReady inp <;> simp [hf, hn]
  · cases hf : flagOf s (currentMode inp) <;>
      cases hn : nextPeriodReady inp <;> simp [hf, hn, hm]

theorem initCall_count_aux (M : Mode) :
    ∀ (L : List LoopInput) (s : RobotState) (i : Nat), Reachable s →
      countEvent (Event.initCall M) ((iterEvents s L).getD i []) =
        if i < L.length ∧ modeAtD L i = M ∧
            (if i = 0 then flagOf s M = false else modeAtD L (i - 1) ≠ M)
          then 1 else 0 := by
  intro L
  induction L with
  | nil => intro s i _; simp [iterEvents]
  | cons inp rest ih =>
    intro s i hs
    cases i with
    | zero =>
      simp [iterEvents, modeAtD, countEvent_initCall_loopIter]
    | succ j =>
      have hs1 : Reachable (loopIter s inp).1 := reachable_loopIter s inp hs
      have hrec := ih (loopIter s inp).1 j hs1
      simp only [iterEvents, List.getD_cons_succ]
      rw [hrec]
      have hflag : (flagOf (loopIter s inp).1 M = false) ↔
          ¬ (currentMode inp = M) := by
        rw [loopIter_fst s inp hs]; simp
      rcases j with _ | k
      · simp [modeAtD, hflag]
      · simp [modeAtD, Nat.succ_lt_succ_iff]

/-- The fallible `if`/`elif` chain also dispatches to the branch of
`currentMode inp`, testing that branch's own flag. -/
theorem stepE_eq_branch (s : RobotState) (inp : LoopInput) (fs : FaultSpec) :
    stepE s inp fs =
      branchStepE (currentMode inp) (flagOf s (currentMode inp)) s inp fs := by
  rcases inp with ⟨d, t, a, n⟩
  cases d <;> cases t <;> cases a <;> simp [stepE, currentMode, flagOf]

theorem runE_cons_fault (s s1 : RobotState) (inp : LoopInput) (fs : FaultSpec)
    (rest : List (LoopInput × FaultSpec)) (es : List Event)
    (h : stepE s inp fs = Outcome.fault s1 es) :
    runE s ((inp, fs) :: rest) = Outcome.fault s1 es := by
  simp [runE, h]

theorem runE_ok_then_fault :
    ∀ (pre : List (LoopInput × FaultSpec)) (s s0 s1 : RobotState)
      (es0 es1 : List Event) (inp : LoopInput) (fs : FaultSpec)
      (rest : List (LoopInput × FaultSpec)),
      runE s pre = Outcome.ok s0 es0 →
      stepE s0 inp fs = Outcome.fault s1 es1 →
      runE s (pre ++ (inp, fs) :: rest) = Outcome.fault s1 (es0 ++ es1) := by
  intro pre
  induction pre with
  | nil =>
    intro s s0 s1 es0 es1 inp fs rest h hf
    simp only [runE] at h
    cases h
    simp [runE, hf]
  | cons p tl ih =>
    intro s s0 s1 es0 es1 inp fs rest h hf
    obtain ⟨inp0, fs0⟩ := p
    cases hstep : stepE s inp0 fs0 with
    | fault sx esx =>
      rw [runE_cons_fault _ _ _ _ _ _ hstep] at h
      cases h
    | ok sx esx =>
      cases hrun : runE sx tl with
      | fault s2 es2 => simp [runE, hstep, hrun] at h
      | ok s2 es2 =>
        have h2 : s2 = s0 ∧ esx ++ es2 = es0 := by
          simpa [runE, hstep, hrun] using h
        obtain ⟨rfl, rfl⟩ := h2
        have hrec := ih sx s2 s1 es2 es1 inp fs rest hrun hf
        simp [runE, hstep, hrec, List.append_assoc]

theorem countEvent_robotInit_loopIter (s : RobotState) (inp : LoopInput) :
    countEvent Event.robotInitCall (loopIter s inp).2 = 0 := by
  rw [loopIter_eq_branch, branchIter_snd]
  cases hf : flagOf s (currentMode inp) <;>
    cases hn : nextPeriodReady inp <;> simp [hn, hf]

theorem countEvent_halReport_loopIter (s : RobotState) (inp : LoopInput) :
    countEvent Event.halReport (loopIter s inp).2 = 0 := by
  rw [loopIter_eq_branch, branchIter_snd]
  cases hf : flagOf s (currentMode inp) <;>
    cases hn : nextPeriodReady inp <;> simp [hn, hf]

theorem countEvent_robotInit_loopRun (L : List LoopInput) :
    ∀ s : RobotState, countEvent Event.robotInitCall (loopRun s L).2 = 0 := by
  induction L with
  | nil => intro s; simp [loopRun]
  | cons inp rest ih =>
    intro s
    simp [loopRun, countEvent_robotInit_loopIter, ih]

theorem countEvent_halReport_loopRun (L : List LoopInput) :
    ∀ s : RobotState, countEvent Event.halReport (loopRun s L).2 = 0 := by
  induction L with
  | nil => intro s; simp [loopRun]
  | cons inp rest ih =>
    intro s
    simp [loopRun, countEvent_halReport_loopIter, ih]

theorem reachable_atMostOne (s : RobotState) (h : Reachable s) :
    atMostOneInit s := by
  rcases h with rfl | ⟨m, rfl⟩
  · simp [atMostOneInit, initState]
  · cases m <;> simp [atMostOneInit, activeState]

theorem loopStates_reachable :
    ∀ (L : List LoopInput) (s0 s : RobotState), Reachable s0 →
      s ∈ loopStates s0 L → Reachable s := by
  intro L
  induction L with
  | nil =>
    intro s0 s h hs
    simp [loopStates] at hs
    subst hs
    exact h
  | cons inp rest ih =>
    intro s0 s h hs
    simp only [loopStates, List.mem_cons] at hs
    rcases hs with rfl | hs
    · exact h
    · exact ih _ _ (reachable_loopIter s0 inp h) hs

theorem count_true_initStep (n : Nat) :
    ∀ st : LatchState,
      (iterateHandler disabledInitStep st n).count true = n := by
  induction n with
  | zero => intro st; rfl
  | succ k ih => intro st; simp [iterateHandler, disabledInitStep, ih]

theorem iterateHandler_latched (n : Nat) :
    iterateHandler disabledPeriodicStep { hasFirstRunAttr := true } n =
      List.replicate n false := by
  induction n with
  | zero => rfl
  | succ k ih =>
      simp [iterateHandler, disabledPeriodicStep, ih, List.replicate_succ]

theorem count_true_replicate_false (n : Nat) :
    (List.replicate n false).count true = 0 := by
  induction n with
  | zero => rfl
  | succ k ih => simp [List.replicate_succ, ih]

theorem count_true_periodicStep (n : Nat) :
    (iterateHandler disabledPeriodicStep freshLatch n).count true =
      min n 1 := by
  cases n with
  | zero => rfl
  | succ k =>
      simp [iterateHandler, disabledPeriodicStep, freshLatch,
            iterateHandler_latched, count_true_replicate_false]

/-- C1: for every input sequence fed to the loop of `startCompetition`, the
init callback for mode `M` fires at iteration `i` exactly when iteration
`i` selects mode `M` and is the start of a maximal contiguous run of
iterations selecting `M` (the first iteration, or an iteration whose
predecessor selected a different mode); hence exactly once per maximal run
and never on two consecutive iterations reporting the same mode. -/
theorem c1_init_exactly_once_per_run (L : List LoopInput) (M : Mode)
    (i : Nat) (hi : i < L.length) :
    countEvent (Event.initCall M) ((iterEvents initState L).getD i []) =
      if modeAtD L i = M ∧ (i = 0 ∨ modeAtD L (i - 1) ≠ M) then 1
      else 0 := by
  rw [initCall_count_aux M L initState i (Or.inl rfl)]
  rcases i with _ | k
  · simp [hi]
  · simp [hi]

theorem c1_init_exactly_once_per_run_witness :
    countEvent (Event.initCall Mode.Disabled)
        ((iterEvents initState
            [{ isDisabled := true, isTest := false, isAutonomous := false,
               isNewControlData := true },
             { isDisabled := true, isTest := false, isAutonomous := false,
               isNewControlData := true }]).getD 1 []) =
      if modeAtD
            [{ isDisabled := true, isTest := false, isAutonomous := false,
               isNewControlData := true },
             { isDisabled := true, isTest := false, isAutonomous := false,
               isNewControlData := true }] 1 = Mode.Disabled ∧
          (1 = 0 ∨ modeAtD
            [{ isDisabled := true, isTest := false, isAutonomous := false,
               isNewControlData := true },
             { isDisabled := true, isTest := false, isAutonomous := false,
               isNewControlData := true }] (1 - 1) ≠ Mode.Disabled) then 1
      else 0 :=
  c1_init_exactly_once_per_run _ Mode.Disabled 1 (by decide)

/-- C2: at every iteration boundary of the loop (including the state at
construction), at most one of the four initialization flags is `true`, for
every input sequence. -/
theorem c2_at_most_one_flag (L : List LoopInput) (s : RobotState)
    (hs : s ∈ loopStates initState L) : atMostOneInit s :=
  reachable_atMostOne s (loopStates_reachable L initState s (Or.inl rfl) hs)

theorem c2_at_most_one_flag_witness :
    atMostOneInit (activeState Mode.Teleop) :=
  c2_at_most_one_flag
    [{ isDisabled := false, isTest := false, isAutonomous := false,
       isNewControlData := false }]
    (activeState Mode.Teleop) (by decide)

/-- C3: in every iteration, the periodic callback for mode `M` is invoked
exactly when `nextPeriodReady` returned true in that iteration and `M` is
the selected mode; with no new tick, no periodic callback fires at all. -/
theorem c3_periodic_iff_tick (s : RobotState) (inp : LoopInput) (M : Mode) :
    Event.periodicCall M ∈ (loopIter s inp).2 ↔
      nextPeriodReady inp = true ∧ M = currentMode inp := by
  rw [loopIter_eq_branch, branchIter_snd]
  cases hf : flagOf s (currentMode inp) <;>
    cases hn : nextPeriodReady inp <;> simp [hn, eq_comm]

/-- C4: on an iteration with both a mode transition (the selected mode's
flag was down) and a new tick, the iteration's calls are, in order: the
mode init callback, the tick query, the HAL observe call, the mode periodic
callback, and `waitForData`; in particular the init call completes before
the periodic call begins, within the same iteration. -/
theorem c4_init_before_periodic (s : RobotState) (inp : LoopInput)
    (hflag : flagOf s (currentMode inp) = false)
    (htick : nextPeriodReady inp = true) :
    (loopIter s inp).2 =
      [Event.initCall (currentMode inp), Event.nextPeriodReadyCall,
       Event.observe (currentMode inp), Event.periodicCall (currentMode inp),
       Event.waitForData] := by
  rw [loopIter_eq_branch, branchIter_snd]
  simp [hflag, htick]

theorem c4_init_before_periodic_witness :
    (loopIter initState
        { isDisabled := false, isTest := false, isAutonomous := false,
          isNewControlData := true }).2 =
      [Event.initCall Mode.Teleop, Event.nextPeriodReadyCall,
       Event.observe Mode.Teleop, Event.periodicCall Mode.Teleop,
       Event.waitForData] :=
  c4_init_before_periodic initState
    { isDisabled := false, isTest := false, isAutonomous := false,
      isNewControlData := true } (by decide) (by decide)

/-- C5: mode selection follows the fixed precedence Disabled, then Test,
then Autonomous, with Teleop the default fallback; the branch actually run
(witnessed by its HAL observe call on a tick iteration) is the branch of
`currentMode`, for any combination of predicate results — including several
predicates simultaneously true. -/
theorem c5_mode_precedence (s : RobotState) (inp : LoopInput)
    (h : nextPeriodReady inp = true) :
    (∀ M : Mode,
        Event.observe M ∈ (loopIter s inp).2 ↔ M = currentMode inp) ∧
    (inp.isDisabled = true → currentMode inp = Mode.Disabled) ∧
    (inp.isDisabled = false → inp.isTest = true →
      currentMode inp = Mode.Test) ∧
    (inp.isDisabled = false → inp.isTest = false →
      inp.isAutonomous = true → currentMode inp = Mode.Autonomous) ∧
    (inp.isDisabled = false → inp.isTest = false →
      inp.isAutonomous = false → currentMode inp = Mode.Teleop) := by
  refine ⟨?_, ?_, ?_, ?_, ?_⟩
  · intro M
    rw [loopIter_eq_branch, branchIter_snd]
    cases hf : flagOf s (currentMode inp) <;> simp [h, eq_comm]
  · intro hd; simp [currentMode, hd]
  · intro hd ht; simp [currentMode, hd, ht]
  · intro hd ht ha; simp [currentMode, hd, ht, ha]
  · intro hd ht ha; simp [currentMode, hd, ht, ha]

theorem c5_mode_precedence_witness :
    (Event.observe Mode.Disabled ∈ (loopIter initState
        { isDisabled := true, isTest := true, isAutonomous := true,
          isNewControlData := true }).2 ↔
      Mode.Disabled = currentMode
        { isDisabled := true, isTest := true, isAutonomous := true,
          isNewControlData := true }) ∧
    currentMode
        { isDisabled := true, isTest := true, isAutonomous := true,
          isNewControlData := true } = Mode.Disabled :=
  ⟨(c5_mode_precedence initState
      { isDisabled := true, isTest := true, isAutonomous := true,
        isNewControlData := true } rfl).1 Mode.Disabled,
   (c5_mode_precedence initState
      { isDisabled := true, isTest := true, isAutonomous := true,
        isNewControlData := true } rfl).2.1 rfl⟩

/-- C6: if an init or periodic callback raises during some iteration, the
error propagates out of `startCompetition` uncaught, the loop terminates at
that iteration (later inputs are never processed and no flag is mutated
after the raising call), and if the raising call was an init callback all
four flags keep the values they had at the start of that iteration. -/
theorem c6_handler_fault_stops_loop (pre rest : List (LoopInput × FaultSpec))
    (s0 s1 : RobotState) (es0 es1 : List Event) (inp : LoopInput)
    (fs : FaultSpec)
    (hpre : runE initState pre = Outcome.ok s0 es0)
    (hf : stepE s0 inp fs = Outcome.fault s1 es1) :
    runE initState (pre ++ (inp, fs) :: rest) =
      Outcome.fault s1 (es0 ++ es1) ∧
    startCompetitionE (pre ++ (inp, fs) :: rest) =
      Outcome.fault s1
        (Event.halReport :: Event.robotInitCall :: (es0 ++ es1)) ∧
    (fs.initFault = true → flagOf s0 (currentMode inp) = false →
      s1 = s0) := by
  have hrun :=
    runE_ok_then_fault pre initState s0 s1 es0 es1 inp fs rest hpre hf
  refine ⟨hrun, by simp [startCompetitionE, hrun], ?_⟩
  intro hinit hflag
  rw [stepE_eq_branch, hflag] at hf
  simp [branchStepE, hinit] at hf
  exact hf.1.symm

theorem c6_handler_fault_stops_loop_witness :
    runE initState
        [({ isDisabled := true, isTest := false, isAutonomous := false,
            isNewControlData := true },
          { initFault := true, observeFault := false,
            periodicFault := false })] =
      Outcome.fault initState [Event.initCall Mode.Disabled] :=
  (c6_handler_fault_stops_loop [] [] initState initState []
      [Event.initCall Mode.Disabled]
      { isDisabled := true, isTest := false, isAutonomous := false,
        isNewControlData := true }
      { initFault := true, observeFault := false, periodicFault := false }
      rfl (by decide)).1

/-- C7 counterexample: with the driver station reporting disabled mode and
a new tick available, an error raised by the HAL
`HALNetworkCommunicationObserveUserProgramDisabled` call is NOT suppressed:
`startCompetition` ends in a fault (the error propagates out) and the
iteration's periodic callback is never reached — `startCompetition` has no
try/except around the telemetry call. -/
theorem c7_telemetry_fault_counterexample :
    startCompetitionE
        [({ isDisabled := true, isTest := false, isAutonomous := false,
            isNewControlData := true },
          { initFault := false, observeFault := true,
            periodicFault := false })] =
      Outcome.fault (activeState Mode.Disabled)
        [Event.halReport, Event.robotInitCall, Event.initCall Mode.Disabled,
         Event.nextPeriodReadyCall, Event.observe Mode.Disabled] ∧
    Event.periodicCall Mode.Disabled ∉
      [Event.halReport, Event.robotInitCall, Event.initCall Mode.Disabled,
       Event.nextPeriodReadyCall, Event.observe Mode.Disabled] ∧
    Event.periodicCall Mode.Test ∉
      [Event.halReport, Event.robotInitCall, Event.initCall Mode.Disabled,
       Event.nextPeriodReadyCall, Event.observe Mode.Disabled] ∧
    Event.periodicCall Mode.Autonomous ∉
      [Event.halReport, Event.robotInitCall, Event.initCall Mode.Disabled,
       Event.nextPeriodReadyCall, Event.observe Mode.Disabled] ∧
    Event.periodicCall Mode.Teleop ∉
      [Event.halReport, Event.robotInitCall, Event.initCall Mode.Disabled,
       Event.nextPeriodReadyCall, Event.observe Mode.Disabled] := by
  decide

/-- C7 amended: an error raised by the per-tick HAL observe call is not
suppressed — it aborts the iteration before the periodic dispatch, leaves
the flags as the init part of the iteration left them, and terminates the
loop, propagating out of `startCompetition` like any other fault. -/
theorem c7_telemetry_fault_propagates (s : RobotState) (inp : LoopInput)
    (fs : FaultSpec) (rest : List (LoopInput × FaultSpec))
    (hn : nextPeriodReady inp = true) (ho : fs.observeFault = true)
    (hif : fs.initFault = false) :
    stepE s inp fs =
      Outcome.fault
        (if flagOf s (currentMode inp) then s
         else activeState (currentMode inp))
        ((if flagOf s (currentMode inp) then []
          else [Event.initCall (currentMode inp)]) ++
         [Event.nextPeriodReadyCall, Event.observe (currentMode inp)]) ∧
    runE s ((inp, fs) :: rest) =
      Outcome.fault
        (if flagOf s (currentMode inp) then s
         else activeState (currentMode inp))
        ((if flagOf s (currentMode inp) then []
          else [Event.initCall (currentMode inp)]) ++
         [Event.nextPeriodReadyCall, Event.observe (currentMode inp)]) ∧
    (∀ m : Mode,
      Event.periodicCall m ∉
        ((if flagOf s (currentMode inp) then []
          else [Event.initCall (currentMode inp)]) ++
         [Event.nextPeriodReadyCall, Event.observe (currentMode inp)])) := by
  have hstep : stepE s inp fs =
      Outcome.fault
        (if flagOf s (currentMode inp) then s
         else activeState (currentMode inp))
        ((if flagOf s (currentMode inp) then []
          else [Event.initCall (currentMode inp)]) ++
         [Event.nextPeriodReadyCall, Event.observe (currentMode inp)]) := by
    rw [stepE_eq_branch]
    cases hflag : flagOf s (currentMode inp) <;>
      simp [branchStepE, branchTickE, hn, ho, hif, hflag]
  refine ⟨hstep, runE_cons_fault _ _ _ _ _ _ hstep, ?_⟩
  intro m
  cases hflag : flagOf s (currentMode inp) <;> simp [hflag]

theorem c7_telemetry_fault_propagates_witness :
    stepE initState
        { isDisabled := true, isTest := false, isAutonomous := false,
          isNewControlData := true }
        { initFault := false, observeFault := true,
          periodicFault := false } =
      Outcome.fault (activeState Mode.Disabled)
        [Event.initCall Mode.Disabled, Event.nextPeriodReadyCall,
         Event.observe Mode.Disabled] ∧
    Event.periodicCall Mode.Disabled ∉
      [Event.initCall Mode.Disabled, Event.nextPeriodReadyCall,
       Event.observe Mode.Disabled] :=
  ⟨(c7_telemetry_fault_propagates initState
      { isDisabled := true, isTest := false, isAutonomous := false,
        isNewControlData := true }
      { initFault := false, observeFault := true, periodicFault := false }
      [] rfl rfl rfl).1,
   (c7_telemetry_fault_propagates initState
      { isDisabled := true, isTest := false, isAutonomous := false,
        isNewControlData := true }
      { initFault := false, observeFault := true, periodicFault := false }
      [] rfl rfl rfl).2.2 Mode.Disabled⟩

/-- C8 counterexample: the default `disabledInit` handler prints its
"Overload me" diagnostic unconditionally, so across two invocations (two
entries of disabled mode) it prints twice — also on the second invocation,
not only on the first. -/
theorem c8_default_init_counterexample :
    (iterateHandler disabledInitStep freshLatch 2).count true = 2 ∧
    (iterateHandler disabledInitStep freshLatch 2).getD 1 false = true := by
  decide

/-- C8 amended: the once-globally latch holds for the default periodic
handlers — keyed to the function object's `firstRun` attribute, the
diagnostic is printed on the first invocation only, over any number of mode
entries — while each default init handler prints its diagnostic on every
invocation. -/
theorem c8_diagnostic_latch (n : Nat) :
    (iterateHandler disabledPeriodicStep freshLatch n).count true =
        min n 1 ∧
    (iterateHandler autonomousPeriodicStep freshLatch n).count true =
        min n 1 ∧
    (iterateHandler teleopPeriodicStep freshLatch n).count true = min n 1 ∧
    (iterateHandler testPeriodicStep freshLatch n).count true = min n 1 ∧
    (iterateHandler disabledInitStep freshLatch n).count true = n ∧
    (iterateHandler autonomousInitStep freshLatch n).count true = n ∧
    (iterateHandler teleopInitStep freshLatch n).count true = n ∧
    (iterateHandler testInitStep freshLatch n).count true = n := by
  have hp1 : autonomousPeriodicStep = disabledPeriodicStep := rfl
  have hp2 : teleopPeriodicStep = disabledPeriodicStep := rfl
  have hp3 : testPeriodicStep = disabledPeriodicStep := rfl
  have hi1 : autonomousInitStep = disabledInitStep := rfl
  have hi2 : teleopInitStep = disabledInitStep := rfl
  have hi3 : testInitStep = disabledInitStep := rfl
  refine ⟨count_true_periodicStep n,
    by rw [hp1]; exact count_true_periodicStep n,
    by rw [hp2]; exact count_true_periodicStep n,
    by rw [hp3]; exact count_true_periodicStep n,
    count_true_initStep n freshLatch,
    by rw [hi1]; exact count_true_initStep n freshLatch,
    by rw [hi2]; exact count_true_initStep n freshLatch,
    by rw [hi3]; exact count_true_initStep n freshLatch⟩

/-- C9: every iteration of the loop queries `nextPeriodReady` (the driver
station's `isNewControlData`) exactly once — in particular at most once —
whichever mode branch is selected. -/
theorem c9_tick_query_once (s : RobotState) (inp : LoopInput) :
    countEvent Event.nextPeriodReadyCall (loopIter s inp).2 ≤ 1 ∧
    countEvent Event.nextPeriodReadyCall (loopIter s inp).2 = 1 := by
  have h : countEvent Event.nextPeriodReadyCall (loopIter s inp).2 = 1 := by
    rw [loopIter_eq_branch, branchIter_snd]
    cases hf : flagOf s (currentMode inp) <;>
      cases hn : nextPeriodReady inp <;> simp [hn, hf]
  exact ⟨le_of_eq h, h⟩

/-- C10: every run of `startCompetition` calls `robotInit` exactly once,
placed right after the HAL framework usage report and before every loop
event — hence before any mode init or periodic callback, which occur only
inside the loop. -/
theorem c10_robotInit_once_first (L : List LoopInput) :
    (startCompetition L).2 =
      Event.halReport :: Event.robotInitCall :: (loopRun initState L).2 ∧
    countEvent Event.robotInitCall (startCompetition L).2 = 1 ∧
    countEvent Event.robotInitCall (loopRun initState L).2 = 0 ∧
    countEvent Event.halReport (loopRun initState L).2 = 0 := by
  refine ⟨rfl, ?_, countEvent_robotInit_loopRun L initState,
    countEvent_halReport_loopRun L initState⟩
  simp [startCompetition, countEvent_robotInit_loopRun L initState]

/-- The fallible model refines the fault-free one: with no call raising,
`stepE` completes normally with exactly the state and events of `loopIter`. -/
theorem stepE_no_fault (s : RobotState) (inp : LoopInput) :
    stepE s inp
        { initFault := false, observeFault := false,
          periodicFault := false } =
      Outcome.ok (loopIter s inp).1 (loopIter s inp).2 := by
  rw [stepE_eq_branch, loopIter_eq_branch]
  cases hf : flagOf s (currentMode inp) <;>
    cases hn : nextPeriodReady inp <;>
      simp [branchStepE, branchTickE, branchIter, hn, hf]
